import Mathlib

/-!
Verification development for the traceability reconciliation and report-synthesis
pipeline of `src/scripts/update_srvp.py`.

The Python functions are shallowly embedded as executable Lean definitions:
- Python dicts become association lists `List (String × β)` (unique keys, insertion
  order preserved, in-place update on reassignment), read through `dictGet`.
- The two regular expressions (`REQ-(?:[A-Z]+-)+\d{3}` and the test-declaration /
  docstring pattern) are embedded as deterministic scanners.  Both regexes use only
  disjoint character classes at every choice point, so Python's leftmost, greedy,
  backtracking semantics collapses to the deterministic scanners written here; the
  correspondence is argued class-by-class in the comments of each scanner.
- Character classes `[A-Z]`, `\d`, `\w` are modelled over their ASCII ranges
  (the identifiers and test names handled by the script are ASCII).
- File, environment and subprocess reads are passed in as explicit parameters.
-/

/-- Python dict lookup `d.get(k, dflt)` over the association-list model of a dict. -/
def dictGet {β : Type} (d : List (String × β)) (k : String) (dflt : β) : β :=
  match d with
  | [] => dflt
  | p :: rest => if p.1 == k then p.2 else dictGet rest k dflt

/-- ASCII `[A-Z]` character class of the requirement-id regex. -/
def isUpperCh (c : Char) : Bool := 'A' ≤ c && c ≤ 'Z'

/-- ASCII `\d` character class of the requirement-id regex. -/
def isDigitCh (c : Char) : Bool := '0' ≤ c && c ≤ '9'

/-- ASCII `\w` character class of the test-name regex. -/
def isWordCh (c : Char) : Bool :=
  isUpperCh c || ('a' ≤ c && c ≤ 'z') || isDigitCh c || c == '_'

/-- Maximal run matching `[A-Z]+` at the head of the input (greedy, and
deterministic: the character after the run is not uppercase, so the regex engine
never profits from giving characters back).  Returns `(run, rest)`. -/
def matchUpperRun : List Char → List Char × List Char
  | [] => ([], [])
  | c :: cs =>
    if isUpperCh c then
      let p := matchUpperRun cs
      (c :: p.1, p.2)
    else ([], c :: cs)

/-- Exactly `\d{3}` at the head of the input. -/
def matchDigits3 : List Char → Option (List Char × List Char)
  | d1 :: d2 :: d3 :: rest =>
    if isDigitCh d1 && isDigitCh d2 && isDigitCh d3 then some ([d1, d2, d3], rest)
    else none
  | _ => none

/-- Matcher for `(?:[A-Z]+-)+\d{3}` at the head of the input, mirroring Python's
greedy backtracking: one group `[A-Z]+-` is mandatory, then the engine prefers a
further group over the terminating `\d{3}` and falls back on failure.  (Because
`[A-Z]`, `-` and `\d` are disjoint, deeper backtracking into `[A-Z]+` can never
succeed, so this fallback is the whole search.)  Fuel only bounds the recursion;
callers pass at least the input length plus one, which the length-decreasing
recursive calls never exhaust. -/
def matchBlocksDigits : Nat → List Char → Option (List Char × List Char)
  | 0, _ => none
  | fuel + 1, l =>
    let p := matchUpperRun l
    if p.1.isEmpty then none
    else
      match p.2 with
      | '-' :: rest' =>
        match matchBlocksDigits fuel rest' with
        | some (m, r) => some (p.1 ++ '-' :: m, r)
        | none =>
          match matchDigits3 rest' with
          | some (d, r) => some (p.1 ++ '-' :: d, r)
          | none => none
      | _ => none

/-- Matcher for the full pattern `REQ-(?:[A-Z]+-)+\d{3}` at the head of the input. -/
def matchReqAt (fuel : Nat) : List Char → Option (List Char × List Char)
  | 'R' :: 'E' :: 'Q' :: '-' :: rest =>
    match matchBlocksDigits fuel rest with
    | some (m, r) => some ('R' :: 'E' :: 'Q' :: '-' :: m, r)
    | none => none
  | _ => none

/-- Scanner implementing `re.findall(r"REQ-(?:[A-Z]+-)+\d{3}", text)`: try a match
at each position left to right; on success emit it and resume after its end
(non-overlapping), on failure advance one character. -/
def findReqIdsAux : Nat → List Char → List (List Char)
  | 0, _ => []
  | fuel + 1, l =>
    match matchReqAt (fuel + 1) l with
    | some (m, r) => m :: findReqIdsAux fuel r
    | none =>
      match l with
      | [] => []
      | _ :: cs => findReqIdsAux fuel cs

/-- All requirement ids found in a text, in match order: the shared extraction
used at `update_srvp.py:97` (document mode) and `update_srvp.py:191`
(annotation mode). -/
def reqFindAll (s : String) : List String :=
  (findReqIdsAux (s.data.length + 1) s.data).map (fun cs => String.mk cs)





/-- Maximal run matching `\w+` (greedy; the following character is not a word
character, so giving characters back never helps the continuation `\(`). -/
def matchWordRun : List Char → List Char × List Char
  | [] => ([], [])
  | c :: cs =>
    if isWordCh c then
      let p := matchWordRun cs
      (c :: p.1, p.2)
    else ([], c :: cs)

/-- Maximal run matching `[^)]*` (greedy; the continuation `\)` cannot match any
character this class rejects, so the scan to the first `)` is deterministic). -/
def matchNonParenRun : List Char → List Char × List Char
  | [] => ([], [])
  | c :: cs =>
    if c == ')' then ([], c :: cs)
    else
      let p := matchNonParenRun cs
      (c :: p.1, p.2)

/-- Implements the lazy `[\s\S]*?"""` step: split the input at the first
occurrence of `"""`, returning the skipped text and the text after the
delimiter; `none` when no occurrence exists.  (If the continuation after the
first occurrence fails, the regex engine retries later occurrences, but a later
pair of occurrences would in particular provide an occurrence after the first
one, so the first-occurrence rule is exact for the pattern used here.) -/
def splitAtTriple : List Char → Option (List Char × List Char)
  | '"' :: '"' :: '"' :: rest => some ([], rest)
  | c :: cs =>
    match splitAtTriple cs with
    | some p => some (c :: p.1, p.2)
    | none => none
  | [] => none

/-- Matcher, at the head of the input, for the annotation-mode pattern of
`update_srvp.py:182`:

`def (test_\w+)\([^)]*\):[\s\S]*?"""([\s\S]*?)"""`

Returns `(test name, docstring group, rest after the match)`.  Note that the two
`[\s\S]*?` steps match any characters, not only whitespace. -/
def matchDefAt (l : List Char) : Option (String × String × List Char) :=
  match l with
  | 'd' :: 'e' :: 'f' :: ' ' :: 't' :: 'e' :: 's' :: 't' :: '_' :: rest =>
    let w := matchWordRun rest
    if w.1.isEmpty then none
    else
      match w.2 with
      | '(' :: r2 =>
        let pr := matchNonParenRun r2
        match pr.2 with
        | ')' :: ':' :: r4 =>
          match splitAtTriple r4 with
          | some p1 =>
            match splitAtTriple p1.2 with
            | some p2 =>
              some (String.mk ('t' :: 'e' :: 's' :: 't' :: '_' :: w.1), String.mk p2.1, p2.2)
            | none => none
          | none => none
        | _ => none
      | _ => none
  | _ => none

/-- Scanner implementing `re.finditer` for the test-declaration pattern: emit
`(test name, docstring)` pairs in match order, resuming after each match. -/
def findDefsAux : Nat → List Char → List (String × String)
  | 0, _ => []
  | fuel + 1, l =>
    match matchDefAt l with
    | some (name, doc, rest) => (name, doc) :: findDefsAux fuel rest
    | none =>
      match l with
      | [] => []
      | _ :: cs => findDefsAux fuel cs

/-- All `(test name, docstring)` matches of the annotation-mode pattern in one
test file's content. -/
def findDefs (content : String) : List (String × String) :=
  findDefsAux (content.data.length + 1) content.data

/-- Python dict-with-list-values update of `update_srvp.py:193`–`195`:

`if req_id not in req_to_tests: req_to_tests[req_id] = []` followed by
`req_to_tests[req_id].append(full_test_name)` — an existing key keeps its
position and its list is extended; a new key is appended at the end. -/
def addAssoc (m : List (String × List String)) (req_id test_id : String) :
    List (String × List String) :=
  if m.any (fun p => p.1 == req_id) then
    m.map (fun p => if p.1 == req_id then (p.1, p.2 ++ [test_id]) else p)
  else m ++ [(req_id, [test_id])]

/-- Embedding of `extract_req_ids_from_docstrings` (`update_srvp.py:171`–`199`)
over the list of `(file name, file content)` pairs of `TESTS_DIR.glob` order:
for each match of the declaration pattern, every requirement id found in the
docstring group appends the synthetic node id `tests/<file>::<test>`. -/
def extract_req_ids_from_docstrings (files : List (String × String)) :
    List (String × List String) :=
  files.foldl
    (fun m file =>
      (findDefs file.2).foldl
        (fun m' md =>
          (reqFindAll md.2).foldl
            (fun m'' rid => addAssoc m'' rid ("tests/" ++ file.1 ++ "::" ++ md.1)) m')
        m)
    []



/-- Python dict assignment `d[k] = v`: an existing key keeps its position and is
overwritten, a new key is appended (insertion-ordered dicts). -/
def dictInsert {β : Type} (d : List (String × β)) (k : String) (v : β) : List (String × β) :=
  if d.any (fun p => p.1 == k) then
    d.map (fun p => if p.1 == k then (p.1, v) else p)
  else d ++ [(k, v)]

/-- Embedding of the loop of `parse_test_report` (`update_srvp.py:83`–`85`) over
the already-decoded record list: `test_outcomes[test["nodeid"]] = test["outcome"]`.
The surrounding file/JSON failures are modelled in the pipeline state below. -/
def parse_test_report (records : List (String × String)) : List (String × String) :=
  records.foldl (fun d p => dictInsert d p.1 p.2) []

/-- Per-requirement branch body of `get_requirement_statuses`
(`update_srvp.py:207`–`219`): collect one outcome per associated test id
(absent test ids default to `"skipped"`), store `"[x] Failed"` when any outcome
failed, else `"[x] Verified"` when the outcome list is non-empty and all passed,
else store nothing. -/
def statusFor (test_outcomes : List (String × String)) (test_names : List String) :
    Option String :=
  let outcomes := test_names.map (fun name => dictGet test_outcomes name "skipped")
  if outcomes.contains "failed" then some "[x] Failed"
  else if !outcomes.isEmpty && outcomes.all (fun o => o == "passed") then some "[x] Verified"
  else none

/-- Embedding of `get_requirement_statuses` (`update_srvp.py:202`–`222`): one
pass over the association map, keeping only requirements whose branch stored a
status. -/
def get_requirement_statuses (test_outcomes : List (String × String))
    (req_to_tests : List (String × List String)) : List (String × String) :=
  req_to_tests.filterMap
    (fun p => (statusFor test_outcomes p.2).map (fun s => (p.1, s)))

/-- Embedding of `extract_requirement_ids_from_docs` (`update_srvp.py:91`–`106`)
over the readable document texts (`none` = missing or unreadable file, swallowed
best-effort).  Python accumulates into a `set`; the only consumer takes a sorted
deduplicated union, so the set is modelled as the concatenated match list. -/
def extract_requirement_ids_from_docs (docs : List (Option String)) : List String :=
  (docs.filterMap id).foldl (fun acc txt => acc ++ reqFindAll txt) []

/-- Status lookup with rendering default, `update_srvp.py:241`–`242`. -/
def status_of (req_statuses : List (String × String)) (req_id : String) : String :=
  dictGet req_statuses req_id "[ ] Not Started"

/-- Requirement universe of the report, `update_srvp.py:238`:
`sorted(set(req_to_tests.keys()) | ids_from_docs)`. -/
def all_req_ids_sorted (req_to_tests : List (String × List String))
    (ids_from_docs : List String) : List String :=
  List.insertionSort (· ≤ ·) ((req_to_tests.map Prod.fst ++ ids_from_docs).dedup)

/-- Count of one outcome value over the outcome store, `update_srvp.py:232`–`234`. -/
def countOutcome (test_outcomes : List (String × String)) (o : String) : Nat :=
  (test_outcomes.map Prod.snd).countP (fun x => x == o)

/-- Python `str.endswith`. -/
def strEndsWith (s suffix : String) : Bool := suffix.data.isSuffixOf s.data

/-- Verified-requirement counter of the summary, `update_srvp.py:245`. -/
def verified_count (req_statuses : List (String × String))
    (req_to_tests : List (String × List String)) (ids_from_docs : List String) : Nat :=
  (all_req_ids_sorted req_to_tests ids_from_docs).countP
    (fun rid => strEndsWith (status_of req_statuses rid) "Verified")

/-- Failed-requirement counter of the summary, `update_srvp.py:246`. -/
def failed_count (req_statuses : List (String × String))
    (req_to_tests : List (String × List String)) (ids_from_docs : List String) : Nat :=
  (all_req_ids_sorted req_to_tests ids_from_docs).countP
    (fun rid => strEndsWith (status_of req_statuses rid) "Failed")

/-- Pending counter of the summary, `update_srvp.py:247`:
`total_reqs - verified - req_failed`. -/
def pending_count (req_statuses : List (String × String))
    (req_to_tests : List (String × List String)) (ids_from_docs : List String) : Nat :=
  (all_req_ids_sorted req_to_tests ids_from_docs).length
    - verified_count req_statuses req_to_tests ids_from_docs
    - failed_count req_statuses req_to_tests ids_from_docs

/-- One row of the requirements table, `update_srvp.py:288`–`291`. -/
def table_row (req_statuses : List (String × String))
    (req_to_tests : List (String × List String)) (req_id : String) : String :=
  "| " ++ req_id ++ " | " ++ dictGet req_statuses req_id "[ ] Not Started" ++ " | "
    ++ String.intercalate ", " (dictGet req_to_tests req_id []) ++ " |"

/-- One evidence line of a detail block, `update_srvp.py:302`–`305`. -/
def evidence_line (test_outcomes : List (String × String)) (nodeid : String) : String :=
  let outcome := dictGet test_outcomes nodeid "skipped"
  let badge := if outcome == "passed" then "✅" else if outcome == "failed" then "❌" else "➖"
  "  - " ++ badge ++ " `" ++ nodeid ++ "` — " ++ outcome

/-- Detail block of one requirement, `update_srvp.py:297`–`308`. -/
def detail_block (req_statuses : List (String × String))
    (req_to_tests : List (String × List String))
    (test_outcomes : List (String × String)) (req_id : String) : List String :=
  ["### " ++ req_id, "",
   "- Status: " ++ dictGet req_statuses req_id "[ ] Not Started",
   "- Tests:"]
  ++ (dictGet req_to_tests req_id []).map (evidence_line test_outcomes)
  ++ (if (dictGet req_to_tests req_id [] : List String).isEmpty then
        ["  - ➖ No tests mapped yet"] else [])
  ++ [""]

/-- Embedding of `build_markdown_report` (`update_srvp.py:225`–`310`).  The two
file/environment reads the Python function performs internally — the document
id set of `extract_requirement_ids_from_docs` and the `(version, author, date)`
triple of `_get_release_metadata` — are passed as parameters. -/
def build_markdown_report (req_statuses : List (String × String))
    (req_to_tests : List (String × List String))
    (test_outcomes : List (String × String))
    (ids_from_docs : List String)
    (version author date : String) : String :=
  String.intercalate "\n"
    (["---",
      "docType: Software Requirements Verification Plan Report (SRVPR)",
      "docSubtitle: CAN Frame Retransmission Tool",
      "docVersion: " ++ version,
      "docAuthor: " ++ author,
      "createdDate: " ++ date,
      "---", "",
      "# Test Report - SRVP Functional Requirements", "",
      "This document summarizes the latest test run and the verification status "
        ++ "of the SRVP functional requirements.",
      "", "## Summary", "",
      "- Tests: " ++ toString (countOutcome test_outcomes "passed") ++ " passed, "
        ++ toString (countOutcome test_outcomes "failed") ++ " failed, "
        ++ toString (countOutcome test_outcomes "skipped") ++ " skipped (total "
        ++ toString test_outcomes.length ++ ")",
      "- Requirements: " ++ toString (verified_count req_statuses req_to_tests ids_from_docs)
        ++ " verified, " ++ toString (failed_count req_statuses req_to_tests ids_from_docs)
        ++ " failed, " ++ toString (pending_count req_statuses req_to_tests ids_from_docs)
        ++ " pending (total "
        ++ toString (all_req_ids_sorted req_to_tests ids_from_docs).length ++ ")",
      "", "## Requirements Status", "",
      "| Requirement | Status | Tests |",
      "| --- | --- | --- |"]
    ++ (all_req_ids_sorted req_to_tests ids_from_docs).map (table_row req_statuses req_to_tests)
    ++ [""]
    ++ ["## Details", ""]
    ++ ((all_req_ids_sorted req_to_tests ids_from_docs).map
          (detail_block req_statuses req_to_tests test_outcomes)).flatten)

/-- One step `a or b` of Python's `or`-chain over author sources: `a` is an
optional string (`none` = source absent or its lookup failed, every such failure
being swallowed by the source's own broad `except`); Python falsiness also skips
an empty string. -/
def pyOrStr (a : Option String) (b : String) : String :=
  match a with
  | some v => if v = "" then b else v
  | none => b

/-- Embedding of the author chain of `_get_release_metadata`
(`update_srvp.py:147`–`153`):

`os.environ.get("RELEASE_AUTHOR") or os.environ.get("GITHUB_ACTOR") or
_read_doc_author_from_srvp() or _git_cmd_output(["config", "user.name"]) or "Unknown"`

The third and fourth sources return `None` on any internal failure (unreadable
file, failing `git` subprocess), which this model represents as `none`. -/
def resolve_author (release_author github_actor doc_author git_user_name : Option String) :
    String :=
  pyOrStr release_author
    (pyOrStr github_actor
      (pyOrStr doc_author
        (pyOrStr git_user_name "Unknown")))

/-- State of the pytest JSON feed at `REPORT_PATH` when `parse_test_report` runs:
missing (raises `FileNotFoundError`), undecodable JSON (raises), or a decoded
record list `(nodeid, outcome)`. -/
inductive FeedState : Type
  | missing : FeedState
  | unparseable : FeedState
  | parsed : List (String × String) → FeedState

/-- External environment of one run of `main` (`update_srvp.py:324`–`375`): every
subprocess result, file read and environment variable the run consumes. -/
structure PipelineEnv : Type where
  pytest_available : Bool
  tests_dir_exists : Bool
  run_tests_ok : Bool
  feed : FeedState
  test_files : List (String × String)
  doc_texts : List (Option String)
  release_author : Option String
  github_actor : Option String
  doc_author : Option String
  git_user_name : Option String
  version : String
  date : String
  old_report : Option String

/-- Embedding of `main` (`update_srvp.py:324`–`375`): returns the exit code and
the report written to `OUTPUT_PATH` (`none` when the run never reaches
`write_markdown_report`).  The two exceptions `parse_test_report` can raise are
caught by the surrounding `try`/`except`, which returns 1 before any write; a
missing SRVP document is only a warning and does not alter control flow. -/
def main_run (env : PipelineEnv) : Int × Option String :=
  if !env.pytest_available then (1, none)
  else if !env.tests_dir_exists then (1, none)
  else if !env.run_tests_ok then (1, none)
  else
    match env.feed with
    | FeedState.missing => (1, none)
    | FeedState.unparseable => (1, none)
    | FeedState.parsed records =>
      let test_outcomes := parse_test_report records
      let req_to_tests := extract_req_ids_from_docstrings env.test_files
      let req_statuses := get_requirement_statuses test_outcomes req_to_tests
      let ids_from_docs := extract_requirement_ids_from_docs env.doc_texts
      let author := resolve_author env.release_author env.github_actor
        env.doc_author env.git_user_name
      (0, some (build_markdown_report req_statuses req_to_tests test_outcomes
        ids_from_docs env.version author env.date))

/-- Content of `OUTPUT_PATH` after the run: the fresh report when one was
written, otherwise whatever was there before. -/
def final_artifact (env : PipelineEnv) : Option String :=
  match (main_run env).2 with
  | some r => some r
  | none => env.old_report

/-- Fatal conditions of the error taxonomy: pytest unavailable, tests directory
missing, the pytest subprocess failing, or the result feed missing/unparseable. -/
def fatal_failure (env : PipelineEnv) : Prop :=
  env.pytest_available = false ∨ env.tests_dir_exists = false ∨ env.run_tests_ok = false
    ∨ env.feed = FeedState.missing ∨ env.feed = FeedState.unparseable

/-- Grammar of requirement-id bodies, written from the spec: one or more groups
of uppercase letters each followed by `-`, ending in exactly three decimal
digits. -/
inductive SpecBody : List Char → Prop
  | last (seg : List Char) (d1 d2 d3 : Char) :
      seg ≠ [] → (∀ c ∈ seg, isUpperCh c = true) →
      isDigitCh d1 = true → isDigitCh d2 = true → isDigitCh d3 = true →
      SpecBody (seg ++ '-' :: [d1, d2, d3])
  | cons (seg : List Char) (rest : List Char) :
      seg ≠ [] → (∀ c ∈ seg, isUpperCh c = true) →
      SpecBody rest → SpecBody (seg ++ '-' :: rest)

/-- Grammar of requirement identifiers, written from the spec's words
(`REQ-` followed by a `SpecBody`), for comparison against the scanner. -/
def SpecGrammar (s : String) : Prop :=
  ∃ body, s.data = 'R' :: 'E' :: 'Q' :: '-' :: body ∧ SpecBody body

theorem dictGet_not_mem {β : Type} {d : List (String × β)} {k : String} (dflt : β)
    (h : k ∉ d.map Prod.fst) : dictGet d k dflt = dflt := by
  induction d with
  | nil => rfl
  | cons p rest ih =>
    simp only [List.map_cons, List.mem_cons, not_or] at h
    simp only [dictGet]
    rw [if_neg (by simp [Ne.symm h.1]), ih h.2]

theorem mem_get_requirement_statuses {tos : List (String × String)}
    {rtt : List (String × List String)} {r s : String}
    (h : (r, s) ∈ get_requirement_statuses tos rtt) :
    ∃ ts, (r, ts) ∈ rtt ∧ statusFor tos ts = some s := by
  simp only [get_requirement_statuses, List.mem_filterMap] at h
  obtain ⟨⟨r', ts⟩, hp, hmap⟩ := h
  cases hst : statusFor tos ts with
  | none => rw [hst] at hmap; exact absurd hmap (by simp)
  | some s' =>
    rw [hst] at hmap
    simp at hmap
    exact ⟨ts, hmap.1 ▸ hp, by rw [hst, hmap.2]⟩

theorem key_mem_of_mem_statuses {tos : List (String × String)}
    {rtt : List (String × List String)} {r : String}
    (h : r ∈ (get_requirement_statuses tos rtt).map Prod.fst) :
    r ∈ rtt.map Prod.fst := by
  simp only [List.mem_map] at h ⊢
  obtain ⟨⟨r', s⟩, hmem, rfl⟩ := h
  obtain ⟨ts, hts, _⟩ := mem_get_requirement_statuses hmem
  exact ⟨(r', ts), hts, rfl⟩

theorem dictGet_statuses {tos : List (String × String)}
    {rtt : List (String × List String)} {r : String} {ts : List String} (dflt : String)
    (hnd : (rtt.map Prod.fst).Nodup) (hmem : (r, ts) ∈ rtt) :
    dictGet (get_requirement_statuses tos rtt) r dflt = (statusFor tos ts).getD dflt := by
  induction rtt with
  | nil => cases hmem
  | cons p rest ih =>
    simp only [List.map_cons, List.nodup_cons] at hnd
    rcases List.mem_cons.mp hmem with heq | htail
    · cases heq
      simp only [get_requirement_statuses, List.filterMap_cons]
      cases hst : statusFor tos ts with
      | none =>
        simp only [hst, Option.getD_none]
        apply dictGet_not_mem
        intro hk
        exact hnd.1 (key_mem_of_mem_statuses hk)
      | some s =>
        simp only [hst, Option.map_some, dictGet, beq_self_eq_true, if_true,
          Option.getD_some]
    · have hne : ¬(p.1 == r) = true := by
        simp only [beq_iff_eq]
        intro hpr
        exact hnd.1 (hpr ▸ (List.mem_map.mpr ⟨(r, ts), htail, rfl⟩))
      simp only [get_requirement_statuses, List.filterMap_cons] at ih ⊢
      cases hst : statusFor tos p.2 with
      | none => exact ih hnd.2 htail
      | some s =>
        simp only [hst, Option.map_some, dictGet, hne, if_false]
        exact ih hnd.2 htail

/-- C1: for every requirement id with at least one associated test, after
collecting one outcome per associated test id (defaulting to `skipped` for test
ids absent from the outcome store), the resolved status is `[x] Failed` when any
outcome is `failed`; otherwise `[x] Verified` when all outcomes are `passed`;
otherwise (a mix of passed/skipped with no failure, including all skipped) the
rendering default `[ ] Not Started`. -/
theorem C1_status_resolution_priority (tos : List (String × String))
    (rtt : List (String × List String)) (r : String) (ts : List String)
    (hnd : (rtt.map Prod.fst).Nodup) (hmem : (r, ts) ∈ rtt) (hne : ts ≠ []) :
    ((ts.map (fun name => dictGet tos name "skipped")).contains "failed" = true →
      status_of (get_requirement_statuses tos rtt) r = "[x] Failed") ∧
    ((ts.map (fun name => dictGet tos name "skipped")).contains "failed" = false →
      (∀ o ∈ ts.map (fun name => dictGet tos name "skipped"), o = "passed") →
      status_of (get_requirement_statuses tos rtt) r = "[x] Verified") ∧
    ((ts.map (fun name => dictGet tos name "skipped")).contains "failed" = false →
      (∃ o ∈ ts.map (fun name => dictGet tos name "skipped"), o ≠ "passed") →
      status_of (get_requirement_statuses tos rtt) r = "[ ] Not Started") := by
  have hkey := @dictGet_statuses tos rtt r ts "[ ] Not Started" hnd hmem
  refine ⟨?_, ?_, ?_⟩
  · intro hfail
    rw [status_of, hkey]
    simp only [statusFor, hfail, if_true, Option.getD_some]
  · intro hfail hall
    rw [status_of, hkey]
    have hie : (ts.map (fun name => dictGet tos name "skipped")).isEmpty = false := by
      cases ts with
      | nil => exact absurd rfl hne
      | cons a as => simp [List.isEmpty]
    have hae : (ts.map (fun name => dictGet tos name "skipped")).all
        (fun o => o == "passed") = true := by
      rw [List.all_eq_true]
      intro o ho
      exact beq_iff_eq.mpr (hall o ho)
    simp only [statusFor, hfail, Bool.false_eq_true, if_false, hie, hae,
      Bool.not_false, Bool.and_self, if_true, Option.getD_some]
  · intro hfail hex
    rw [status_of, hkey]
    obtain ⟨o, ho, hop⟩ := hex
    have hae : (ts.map (fun name => dictGet tos name "skipped")).all
        (fun o => o == "passed") = false := by
      rw [Bool.eq_false_iff]
      intro hcon
      exact hop (beq_iff_eq.mp (List.all_eq_true.mp hcon o ho))
    simp only [statusFor, hfail, Bool.false_eq_true, if_false, hae,
      Bool.and_false, Option.getD_none]

/-- Witness: a concrete requirement with one passed and one failed test resolves
to `[x] Failed`. -/
theorem C1_status_resolution_priority_witness :
    status_of (get_requirement_statuses [("t1", "passed"), ("t2", "failed")]
      [("REQ-A-001", ["t1", "t2"])]) "REQ-A-001" = "[x] Failed" :=
  (C1_status_resolution_priority [("t1", "passed"), ("t2", "failed")]
    [("REQ-A-001", ["t1", "t2"])] "REQ-A-001" ["t1", "t2"]
    (by decide) (by decide) (by decide)).1 (by decide)

theorem status_of_not_mem (tos : List (String × String))
    (rtt : List (String × List String)) (r : String) (h : r ∉ rtt.map Prod.fst) :
    status_of (get_requirement_statuses tos rtt) r = "[ ] Not Started" := by
  apply dictGet_not_mem
  intro hk
  exact h (key_mem_of_mem_statuses hk)

theorem mem_all_req_ids_sorted {rtt : List (String × List String)}
    {ids : List String} {r : String} :
    r ∈ all_req_ids_sorted rtt ids ↔ (r ∈ rtt.map Prod.fst ∨ r ∈ ids) := by
  rw [all_req_ids_sorted, (List.perm_insertionSort _ _).mem_iff, List.mem_dedup,
    List.mem_append]

/-- C2: a requirement id of the universe with zero associated tests renders with
status `[ ] Not Started`, and its detail block is exactly the header, the
Not-Started status line, and the single `No tests mapped yet` marker line in
place of an evidence list (and such an id, found in a document, is in the
rendered universe). -/
theorem C2_no_tests_renders_not_started (tos : List (String × String))
    (rtt : List (String × List String)) (ids : List String) (r : String)
    (hr : r ∉ rtt.map Prod.fst) :
    (r ∈ ids → r ∈ all_req_ids_sorted rtt ids) ∧
    table_row (get_requirement_statuses tos rtt) rtt r
      = "| " ++ r ++ " | [ ] Not Started |  |" ∧
    detail_block (get_requirement_statuses tos rtt) rtt tos r
      = ["### " ++ r, "", "- Status: [ ] Not Started", "- Tests:",
         "  - ➖ No tests mapped yet", ""] := by
  have h1 : dictGet (get_requirement_statuses tos rtt) r "[ ] Not Started"
      = "[ ] Not Started" := status_of_not_mem tos rtt r hr
  have h2 : dictGet rtt r ([] : List String) = [] := dictGet_not_mem _ hr
  refine ⟨fun hid => mem_all_req_ids_sorted.mpr (Or.inr hid), ?_, ?_⟩
  · rw [table_row, h1, h2]
    simp only [String.append_assoc]
    congr 2
  · rw [detail_block, h1, h2]
    simp

/-- Witness: a requirement id known only from documents renders as Not Started
with the marker line. -/
theorem C2_no_tests_renders_not_started_witness :
    "REQ-DOC-001" ∈ all_req_ids_sorted [("REQ-A-001", ["t1"])] ["REQ-DOC-001"] ∧
    table_row (get_requirement_statuses [("t1", "passed")] [("REQ-A-001", ["t1"])])
      [("REQ-A-001", ["t1"])] "REQ-DOC-001"
      = "| REQ-DOC-001 | [ ] Not Started |  |" ∧
    detail_block (get_requirement_statuses [("t1", "passed")] [("REQ-A-001", ["t1"])])
      [("REQ-A-001", ["t1"])] [("t1", "passed")] "REQ-DOC-001"
      = ["### REQ-DOC-001", "", "- Status: [ ] Not Started", "- Tests:",
         "  - ➖ No tests mapped yet", ""] := by
  have h := C2_no_tests_renders_not_started [("t1", "passed")] [("REQ-A-001", ["t1"])]
    ["REQ-DOC-001"] "REQ-DOC-001" (by decide)
  exact ⟨h.1 (by decide), h.2.1, h.2.2⟩

/-- C3: the requirement universe rendered in the table and in the detail
section is exactly the union of the annotation-mode key set and the
document-mode id set — every member of the union appears, nothing else
appears, each exactly once, in strictly ascending lexicographic order. -/
theorem C3_table_ids_exact_sorted_union (rtt : List (String × List String))
    (ids : List String) :
    (∀ r, r ∈ all_req_ids_sorted rtt ids ↔ (r ∈ rtt.map Prod.fst ∨ r ∈ ids)) ∧
    (all_req_ids_sorted rtt ids).Nodup ∧
    (all_req_ids_sorted rtt ids).Sorted (· < ·) := by
  have hn : (all_req_ids_sorted rtt ids).Nodup :=
    ((List.perm_insertionSort _ _).nodup_iff).mpr (List.nodup_dedup _)
  refine ⟨fun r => mem_all_req_ids_sorted, hn, ?_⟩
  exact (List.sorted_insertionSort _ _).lt_of_le hn

/-- Witness: on a concrete overlapping pair of id sources the universe is the
sorted deduplicated union. -/
theorem C3_table_ids_exact_sorted_union_witness :
    ("REQ-A-001" ∈ all_req_ids_sorted [("REQ-B-002", ["t"])] ["REQ-A-001", "REQ-B-002"]) ∧
    (all_req_ids_sorted [("REQ-B-002", ["t"])] ["REQ-A-001", "REQ-B-002"]).Nodup := by
  have h := C3_table_ids_exact_sorted_union [("REQ-B-002", ["t"])] ["REQ-A-001", "REQ-B-002"]
  exact ⟨(h.1 "REQ-A-001").mpr (Or.inr (by decide)), h.2.1⟩

theorem isDigitCh_not_upper {c : Char} (h : isDigitCh c = true) : isUpperCh c = false := by
  simp only [isDigitCh, Bool.and_eq_true, decide_eq_true_eq] at h
  simp only [isUpperCh, Bool.and_eq_false_iff]
  left
  simp only [decide_eq_false_iff_not]
  intro hA
  exact absurd (le_trans hA h.2) (by decide)

theorem matchUpperRun_split (l : List Char) :
    (matchUpperRun l).1 ++ (matchUpperRun l).2 = l ∧
    (∀ c ∈ (matchUpperRun l).1, isUpperCh c = true) := by
  induction l with
  | nil => simp [matchUpperRun]
  | cons c cs ih =>
    by_cases hc : isUpperCh c = true
    · simp only [matchUpperRun, hc, if_true]
      refine ⟨by simpa using ih.1, ?_⟩
      intro d hd
      rcases List.mem_cons.mp hd with rfl | hd'
      · exact hc
      · exact ih.2 d hd'
    · simp [matchUpperRun, hc]

theorem matchUpperRun_exact {seg : List Char} {x : Char} {rest : List Char}
    (hseg : ∀ c ∈ seg, isUpperCh c = true) (hx : isUpperCh x = false) :
    matchUpperRun (seg ++ x :: rest) = (seg, x :: rest) := by
  induction seg with
  | nil => simp [matchUpperRun, hx]
  | cons c cs ih =>
    have hc : isUpperCh c = true := hseg c (List.mem_cons_self c cs)
    have := ih (fun d hd => hseg d (List.mem_cons_of_mem c hd))
    simp [matchUpperRun, hc, this]

theorem matchDigits3_sound {l m r : List Char} (h : matchDigits3 l = some (m, r)) :
    l = m ++ r ∧ ∃ d1 d2 d3, m = [d1, d2, d3] ∧
      isDigitCh d1 = true ∧ isDigitCh d2 = true ∧ isDigitCh d3 = true := by
  match l, h with
  | d1 :: d2 :: d3 :: rest, h =>
    simp only [matchDigits3] at h
    by_cases hd : (isDigitCh d1 && isDigitCh d2 && isDigitCh d3) = true
    · rw [if_pos hd] at h
      simp only [Option.some_inj, Prod.mk.injEq] at h
      simp only [Bool.and_eq_true] at hd
      exact ⟨by rw [← h.1, ← h.2]; rfl, d1, d2, d3, h.1.symm, hd.1.1, hd.1.2, hd.2⟩
    · rw [if_neg hd] at h
      cases h

theorem matchBlocksDigits_sound : ∀ fuel l m r,
    matchBlocksDigits fuel l = some (m, r) → l = m ++ r ∧ SpecBody m := by
  intro fuel
  induction fuel with
  | zero => intro l m r h; cases h
  | succ f ih =>
    intro l m r h
    simp only [matchBlocksDigits] at h
    by_cases he : (matchUpperRun l).1.isEmpty = true
    · rw [if_pos he] at h; cases h
    · rw [if_neg he] at h
      obtain ⟨hsplit, hupper⟩ := matchUpperRun_split l
      have hne : (matchUpperRun l).1 ≠ [] := by
        intro hc; rw [hc] at he; exact he rfl
      split at h
      · rename_i rest' hrest
        rw [hrest] at hsplit
        split at h
        · rename_i m' r' hrec
          simp only [Option.some_inj, Prod.mk.injEq] at h
          obtain ⟨h1, h2⟩ := ih rest' m' r' hrec
          constructor
          · rw [← hsplit, h1, ← h.1, ← h.2]; simp
          · rw [← h.1]; exact SpecBody.cons _ _ hne hupper h2
        · rename_i hrec
          split at h
          · rename_i d r' hd3
            simp only [Option.some_inj, Prod.mk.injEq] at h
            obtain ⟨h1, d1, d2, d3, hd, hdig1, hdig2, hdig3⟩ := matchDigits3_sound hd3
            constructor
            · rw [← hsplit, h1, ← h.1, ← h.2]; simp
            · rw [← h.1, hd]
              exact SpecBody.last _ d1 d2 d3 hne hupper hdig1 hdig2 hdig3
          · cases h
      · cases h

theorem isEmpty_false_of_ne_nil {α : Type} {l : List α} (h : l ≠ []) : l.isEmpty = false := by
  cases l with
  | nil => exact absurd rfl h
  | cons a as => rfl

theorem matchBlocksDigits_digit_head_none (f : Nat) {d : Char} {rest : List Char}
    (hd : isDigitCh d = true) : matchBlocksDigits f (d :: rest) = none := by
  cases f with
  | zero => rfl
  | succ f' => simp [matchBlocksDigits, matchUpperRun, isDigitCh_not_upper hd]

theorem matchBlocksDigits_complete :
    ∀ body, SpecBody body → ∀ fuel, body.length ≤ fuel →
      matchBlocksDigits fuel body = some (body, []) := by
  intro body hb
  induction hb with
  | last seg d1 d2 d3 hne hupper h1 h2 h3 =>
    intro fuel hlen
    cases fuel with
    | zero => simp [List.length_append] at hlen
    | succ f =>
      have hup : matchUpperRun (seg ++ '-' :: [d1, d2, d3]) = (seg, '-' :: [d1, d2, d3]) :=
        matchUpperRun_exact hupper (by decide)
      simp only [matchBlocksDigits, hup]
      rw [isEmpty_false_of_ne_nil hne]
      simp only [Bool.false_eq_true, if_false]
      rw [matchBlocksDigits_digit_head_none f h1]
      simp [matchDigits3, h1, h2, h3]
  | cons seg rest hne hupper hrest ih =>
    intro fuel hlen
    cases fuel with
    | zero => simp [List.length_append] at hlen
    | succ f =>
      have hup : matchUpperRun (seg ++ '-' :: rest) = (seg, '-' :: rest) :=
        matchUpperRun_exact hupper (by decide)
      simp only [matchBlocksDigits, hup]
      rw [isEmpty_false_of_ne_nil hne]
      simp only [Bool.false_eq_true, if_false]
      have hlf : rest.length ≤ f := by
        rw [List.length_append, List.length_cons] at hlen
        omega
      rw [ih f hlf]

theorem matchReqAt_sound {fuel : Nat} {l m r : List Char}
    (h : matchReqAt fuel l = some (m, r)) :
    l = m ++ r ∧ SpecGrammar (String.mk m) := by
  rw [matchReqAt.eq_def] at h
  split at h
  · rename_i rest
    cases hb : matchBlocksDigits fuel rest with
    | none => rw [hb] at h; cases h
    | some p =>
      rw [hb] at h
      obtain ⟨m', r'⟩ := p
      simp only [Option.some_inj, Prod.mk.injEq] at h
      obtain ⟨hsplit, hbody⟩ := matchBlocksDigits_sound fuel rest m' r' hb
      constructor
      · rw [hsplit, ← h.1, ← h.2]; rfl
      · exact ⟨m', by rw [← h.1], hbody⟩
  · cases h

theorem findReqIdsAux_sound :
    ∀ fuel l m, m ∈ findReqIdsAux fuel l → SpecGrammar (String.mk m) := by
  intro fuel
  induction fuel with
  | zero => intro l m h; cases h
  | succ f ih =>
    intro l m h
    simp only [findReqIdsAux] at h
    split at h
    · rename_i m' r hm
      rcases List.mem_cons.mp h with rfl | htail
      · exact (matchReqAt_sound hm).2
      · exact ih r m htail
    · split at h
      · cases h
      · exact ih _ m h

theorem findReqIdsAux_nil (fuel : Nat) : findReqIdsAux fuel [] = [] := by
  cases fuel <;> rfl

theorem reqFindAll_sound (t : String) (m : String) (h : m ∈ reqFindAll t) :
    SpecGrammar m := by
  rw [reqFindAll] at h
  obtain ⟨cs, hcs, rfl⟩ := List.mem_map.mp h
  exact findReqIdsAux_sound _ _ cs hcs

theorem reqFindAll_complete (s : String) (h : SpecGrammar s) : reqFindAll s = [s] := by
  obtain ⟨body, hdata, hbody⟩ := h
  have hm : matchReqAt (s.data.length + 1) s.data = some (s.data, []) := by
    rw [hdata, matchReqAt]
    have hc : matchBlocksDigits (('R' :: 'E' :: 'Q' :: '-' :: body).length + 1) body
        = some (body, []) := by
      apply matchBlocksDigits_complete body hbody
      simp only [List.length_cons]
      omega
    rw [hc]
  rw [reqFindAll]
  simp only [findReqIdsAux, hm, findReqIdsAux_nil]
  simp

/-- C4 counterexample: extraction is unanchored, so on the four-digit near-miss
text `REQ-FUNC-0100` the shared pattern still yields an identifier (the
embedded prefix `REQ-FUNC-010`), contradicting the claim that extraction never
yields an identifier for this near-miss. -/
theorem C4_grammar_counterexample :
    reqFindAll "REQ-FUNC-0100" = ["REQ-FUNC-010"] ∧ reqFindAll "REQ-FUNC-0100" ≠ [] := by
  constructor <;> decide

/-- C4 (amended): every string the extraction yields is exactly of the grammar
`REQ-` followed by one-or-more uppercase groups each followed by `-` and a final
three-digit block, and every string of the grammar is extracted whole; texts
consisting of the lowercase-segment or two-digit near-misses yield nothing.
(The part the counterexample forces out of the original claim: because the
pattern is unanchored, a near-miss with extra digits such as `REQ-FUNC-0100`
still yields the embedded well-formed identifier.) -/
theorem C4_grammar_amended :
    (∀ t m : String, m ∈ reqFindAll t → SpecGrammar m) ∧
    (∀ s : String, SpecGrammar s → reqFindAll s = [s]) ∧
    reqFindAll "REQ-func-010" = [] ∧
    reqFindAll "REQ-FUNC-10" = [] :=
  ⟨reqFindAll_sound, reqFindAll_complete, by decide, by decide⟩

/-- Witness: `REQ-FUNC-LOG-010` is in the grammar and is extracted whole. -/
theorem C4_grammar_amended_witness :
    SpecGrammar "REQ-FUNC-LOG-010" ∧ reqFindAll "REQ-FUNC-LOG-010" = ["REQ-FUNC-LOG-010"] := by
  have hg : SpecGrammar "REQ-FUNC-LOG-010" := by
    refine ⟨['F', 'U', 'N', 'C', '-', 'L', 'O', 'G', '-', '0', '1', '0'], by decide, ?_⟩
    exact SpecBody.cons ['F', 'U', 'N', 'C'] _ (by decide) (by decide)
      (SpecBody.last ['L', 'O', 'G'] '0' '1' '0' (by decide) (by decide) (by decide)
        (by decide) (by decide))
  exact ⟨hg, C4_grammar_amended.2.1 _ hg⟩

/-- C5: the annotation-mode extractor does not restrict the text between a test
declaration and the extracted block to whitespace (`[\s\S]*?` matches anything,
although the comment at `update_srvp.py:180`–`181` announces only flexible
whitespace handling).  Evaluating the embedding shows (a) a test declaration
with no docstring is attributed the next function's docstring (and that next
function is swallowed by the same match), and (b) identifiers inside a
triple-quoted string of a test body are extracted. -/
theorem C5_docstring_attachment_bug :
    findDefs "def test_a():\n    x = 1\n\ndef test_b():\n    \"\"\"Covers REQ-FUNC-002.\"\"\"\n"
      = [("test_a", "Covers REQ-FUNC-002.")] ∧
    extract_req_ids_from_docstrings
      [("test_x.py",
        "def test_a():\n    x = 1\n\ndef test_b():\n    \"\"\"Covers REQ-FUNC-002.\"\"\"\n")]
      = [("REQ-FUNC-002", ["tests/test_x.py::test_a"])] ∧
    extract_req_ids_from_docstrings
      [("test_y.py",
        "def test_c():\n    s = \"\"\"in body REQ-FUNC-004\"\"\"\n    assert s\n")]
      = [("REQ-FUNC-004", ["tests/test_y.py::test_c"])] := by
  refine ⟨by decide, by decide, by decide⟩

/-- C6 counterexample: a requirement id occurring twice inside one docstring
appends the same test id twice, so the association list for that id holds a
repeated `(requirementId, testId)` pair. -/
theorem C6_duplicate_pair_counterexample :
    dictGet (extract_req_ids_from_docstrings
        [("test_x.py", "def test_a():\n    \"\"\"REQ-FUNC-001 REQ-FUNC-001\"\"\"\n")])
      "REQ-FUNC-001" []
      = ["tests/test_x.py::test_a", "tests/test_x.py::test_a"] ∧
    ¬ (dictGet (extract_req_ids_from_docstrings
        [("test_x.py", "def test_a():\n    \"\"\"REQ-FUNC-001 REQ-FUNC-001\"\"\"\n")])
      "REQ-FUNC-001" []).Nodup := by
  refine ⟨by decide, by decide⟩

theorem dictGet_map_update {m : List (String × List String)} {rid t r : String}
    (hmem : r = rid → m.any (fun p => p.1 == rid) = true) :
    dictGet (m.map (fun p => if p.1 == rid then (p.1, p.2 ++ [t]) else p)) r [] =
      if r = rid then dictGet m r [] ++ [t] else dictGet m r [] := by
  induction m with
  | nil =>
    simp only [List.any_nil] at hmem
    rcases eq_or_ne r rid with rfl | hne
    · exact absurd (hmem rfl) (by decide)
    · simp [dictGet, hne]
  | cons p rest ih =>
    by_cases hpr : (p.1 == r) = true
    · have hpr' : p.1 = r := beq_iff_eq.mp hpr
      rcases eq_or_ne r rid with rfl | hne
      · simp [dictGet, hpr', beq_iff_eq]
      · have hpd : (p.1 == rid) = false := by
          rw [beq_eq_false_iff_ne]
          rw [hpr']
          exact hne
        simp [dictGet, hpd, hpr', hne, beq_iff_eq]
    · have hpr' : (p.1 == r) = false := by
        rw [Bool.eq_false_iff]
        exact hpr
      have hrec := ih (fun hr => ?_)
      · by_cases hpd : (p.1 == rid) = true
        · simp only [List.map_cons, hpd, if_true, dictGet, hpr', Bool.false_eq_true, if_false]
          exact hrec
        · simp only [List.map_cons, hpd, if_false, Bool.false_eq_true, dictGet, hpr']
          simpa using hrec
      · have := hmem hr
        simp only [List.any_cons, Bool.or_eq_true] at this
        rcases this with hh | ht
        · rw [hr] at hpr'
          rw [hh] at hpr'
          cases hpr'
        · exact ht

theorem dictGet_append_new {m : List (String × List String)} {rid t r : String}
    (hnone : m.any (fun p => p.1 == rid) = false) :
    dictGet (m ++ [(rid, [t])]) r [] =
      if r = rid then dictGet m r [] ++ [t] else dictGet m r [] := by
  induction m with
  | nil =>
    rcases eq_or_ne r rid with rfl | hne
    · simp [dictGet]
    · have hb : (rid == r) = false := by
        rw [beq_eq_false_iff_ne]
        exact Ne.symm hne
      simp [dictGet, hb]
      exact hne
  | cons p rest ih =>
    simp only [List.any_cons, Bool.or_eq_false_iff] at hnone
    by_cases hpr : (p.1 == r) = true
    · have hpr' : p.1 = r := beq_iff_eq.mp hpr
      have hne : r ≠ rid := by
        intro hc
        rw [hc] at hpr'
        rw [hpr'] at hnone
        simp at hnone
      simp [dictGet, hpr', hne, beq_iff_eq]
    · have hpr' : (p.1 == r) = false := by
        rw [Bool.eq_false_iff]; exact hpr
      simp only [List.cons_append, dictGet, hpr', Bool.false_eq_true, if_false]
      exact ih hnone.2

theorem dictGet_addAssoc (m : List (String × List String)) (rid t r : String) :
    dictGet (addAssoc m rid t) r [] =
      if r = rid then dictGet m r [] ++ [t] else dictGet m r [] := by
  rw [addAssoc]
  by_cases hany : m.any (fun p => p.1 == rid) = true
  · rw [if_pos hany]
    exact dictGet_map_update (fun _ => hany)
  · rw [if_neg hany]
    exact dictGet_append_new (Bool.eq_false_iff.mpr hany)

/-- C6 (amended): folding the requirement ids found in one docstring into the
association map — the loop at `update_srvp.py:192`–`195` — appends the test id
once per occurrence of the requirement id: the list associated with `r` grows by
exactly `count r` copies of the test id, so a repeated id inside a single
docstring does produce a repeated `(requirementId, testId)` pair (first-seen
order of distinct ids is still preserved by the in-place update). -/
theorem C6_association_multiplicity_amended (rids : List String)
    (m : List (String × List String)) (t r : String) :
    dictGet (rids.foldl (fun acc rid => addAssoc acc rid t) m) r [] =
      dictGet m r [] ++ List.replicate (rids.count r) t := by
  induction rids generalizing m with
  | nil => simp
  | cons rid rest ih =>
    rw [List.foldl_cons, ih (addAssoc m rid t), dictGet_addAssoc]
    rcases eq_or_ne r rid with rfl | hne
    · rw [if_pos rfl]
      simp [List.count_cons_self, List.replicate_succ, List.append_assoc]
    · rw [if_neg hne, List.count_cons_of_ne hne]

/-- C7 counterexample: an explicitly supplied but empty author override is not
used — Python's `or` treats `""` as false, so the next source wins, against the
claim that a supplied override is used regardless of every other source. -/
theorem C7_empty_override_counterexample :
    resolve_author (some "") (some "alice") none none = "alice" ∧
    resolve_author (some "") (some "alice") none none ≠ "" := by
  refine ⟨rfl, by decide⟩

/-- C7 (amended): a non-empty explicit override wins over every other source,
whatever values the CI actor, doc author and git identity hold; when every
source in the chain is absent or empty (the amendment the counterexample
forces: an empty override also falls through), the author resolves to the
sentinel `Unknown`; and the failure of an individual fallback step — a step
yielding `none` because its file read or subprocess failed — never fails
resolution: the chain resolves to what the remaining steps yield. -/
theorem C7_author_fallback_amended (v : String) (ga da gu : Option String)
    (ra' ga' da' gu' : Option String)
    (hv : v ≠ "")
    (hra' : ra' = none ∨ ra' = some "") (hga' : ga' = none ∨ ga' = some "")
    (hda' : da' = none ∨ da' = some "") (hgu' : gu' = none ∨ gu' = some "") :
    resolve_author (some v) ga da gu = v ∧
    resolve_author ra' ga' da' gu' = "Unknown" ∧
    (∀ b : String, pyOrStr none b = b) := by
  refine ⟨?_, ?_, fun b => rfl⟩
  · simp [resolve_author, pyOrStr, hv]
  · rcases hra' with rfl | rfl <;> rcases hga' with rfl | rfl <;> rcases hda' with rfl | rfl <;>
      rcases hgu' with rfl | rfl <;> rfl

/-- Witness: a non-empty override wins even when the CI actor, doc author and
git identity are all present and non-empty; the all-absent chain yields
`Unknown`. -/
theorem C7_author_fallback_amended_witness :
    resolve_author (some "alice") (some "bob") (some "carol") (some "dave") = "alice" ∧
    resolve_author none none none none = "Unknown" := by
  have h := C7_author_fallback_amended "alice" (some "bob") (some "carol") (some "dave")
    none none none none (by decide) (Or.inl rfl) (Or.inl rfl) (Or.inl rfl) (Or.inl rfl)
  exact ⟨h.1, h.2.1⟩

/-- C8: on any fatal failure (pytest unavailable, tests directory missing, the
test subprocess failing, or the result feed missing/unparseable) the pipeline
writes no report — the previous artifact is exactly preserved — and exits
non-zero; a report is produced exactly on runs where every prior step
succeeded, with exit code 0. -/
theorem C8_fatal_failure_no_report (env : PipelineEnv) :
    (fatal_failure env →
      (main_run env).2 = none ∧ final_artifact env = env.old_report ∧ (main_run env).1 ≠ 0) ∧
    (¬ fatal_failure env →
      (main_run env).1 = 0 ∧ ∃ rep, (main_run env).2 = some rep) := by
  obtain ⟨pa, tde, rto, feed, tf, dt, ra, ga, da, gu, ver, date, old⟩ := env
  cases pa <;> cases tde <;> cases rto <;> cases feed <;>
    simp [main_run, final_artifact, fatal_failure]

/-- Witness: with pytest unavailable nothing is written, the old artifact
survives and the exit code is non-zero. -/
theorem C8_fatal_failure_no_report_witness :
    (main_run ⟨false, true, true, FeedState.parsed [], [], [], none, none, none, none,
        "1.0.0", "2026-01-01", some "old report"⟩).2 = none ∧
    final_artifact ⟨false, true, true, FeedState.parsed [], [], [], none, none, none, none,
        "1.0.0", "2026-01-01", some "old report"⟩ = some "old report" ∧
    (main_run ⟨false, true, true, FeedState.parsed [], [], [], none, none, none, none,
        "1.0.0", "2026-01-01", some "old report"⟩).1 ≠ 0 :=
  (C8_fatal_failure_no_report ⟨false, true, true, FeedState.parsed [], [], [], none, none,
    none, none, "1.0.0", "2026-01-01", some "old report"⟩).1 (Or.inl rfl)

theorem dictGet_perm {β : Type} :
    ∀ {d1 d2 : List (String × β)}, d1.Perm d2 → (d1.map Prod.fst).Nodup →
      ∀ (k : String) (dflt : β), dictGet d1 k dflt = dictGet d2 k dflt := by
  intro d1 d2 h
  induction h with
  | nil => intro _ k dflt; rfl
  | cons x h ih =>
    intro hnd k dflt
    simp only [List.map_cons, List.nodup_cons] at hnd
    simp only [dictGet]
    by_cases hx : (x.1 == k) = true
    · simp [hx]
    · simp only [hx, Bool.false_eq_true, if_false]
      exact ih hnd.2 k dflt
  | swap x y l =>
    intro hnd k dflt
    simp only [List.map_cons, List.nodup_cons, List.mem_cons, not_or] at hnd
    simp only [dictGet]
    by_cases hy : (y.1 == k) = true <;> by_cases hx : (x.1 == k) = true
    · exfalso
      exact hnd.1.1 (beq_iff_eq.mp hy ▸ beq_iff_eq.mp hx ▸ rfl)
    · simp [hx, hy]
    · simp [hx, hy]
    · simp [hx, hy]
  | trans h1 h2 ih1 ih2 =>
    intro hnd k dflt
    rw [ih1 hnd k dflt, ih2 (((h1.map Prod.fst).nodup_iff).mp hnd) k dflt]

/-- C9: the report renderer is deterministic over its abstract inputs — two
renders over the same outcome store, status map, association map (dicts given
in any insertion order), the same document-id set (in any order), and the same
resolved metadata produce byte-identical report text. -/
theorem C9_report_determinism
    (rs1 rs2 : List (String × String)) (rtt1 rtt2 : List (String × List String))
    (tos1 tos2 : List (String × String)) (docs1 docs2 : List String)
    (ver auth date : String)
    (hrs : rs1.Perm rs2) (hrsk : (rs1.map Prod.fst).Nodup)
    (hrtt : rtt1.Perm rtt2) (hrttk : (rtt1.map Prod.fst).Nodup)
    (htos : tos1.Perm tos2) (htosk : (tos1.map Prod.fst).Nodup)
    (hdocs : docs1.Perm docs2) :
    build_markdown_report rs1 rtt1 tos1 docs1 ver auth date =
      build_markdown_report rs2 rtt2 tos2 docs2 ver auth date := by
  have hids : all_req_ids_sorted rtt1 docs1 = all_req_ids_sorted rtt2 docs2 := by
    have hperm : ((rtt1.map Prod.fst ++ docs1).dedup).Perm ((rtt2.map Prod.fst ++ docs2).dedup) :=
      ((hrtt.map Prod.fst).append hdocs).dedup
    exact List.eq_of_perm_of_sorted
      (((List.perm_insertionSort _ _).trans hperm).trans (List.perm_insertionSort _ _).symm)
      (List.sorted_insertionSort _ _) (List.sorted_insertionSort _ _)
  have hsts : ∀ k dflt, dictGet rs1 k dflt = dictGet rs2 k dflt := dictGet_perm hrs hrsk
  have hrt : ∀ k, dictGet rtt1 k [] = dictGet rtt2 k [] :=
    fun k => dictGet_perm hrtt hrttk k []
  have hto : ∀ k, dictGet tos1 k "skipped" = dictGet tos2 k "skipped" :=
    fun k => dictGet_perm htos htosk k "skipped"
  have hc : ∀ o, countOutcome tos1 o = countOutcome tos2 o :=
    fun o => (htos.map Prod.snd).countP_eq _
  have hso : ∀ r, status_of rs1 r = status_of rs2 r := fun r => hsts r _
  have hvc : verified_count rs1 rtt1 docs1 = verified_count rs2 rtt2 docs2 := by
    rw [verified_count, verified_count, hids]
    exact List.countP_congr (fun r _ => by simp only [status_of, hsts])
  have hfc : failed_count rs1 rtt1 docs1 = failed_count rs2 rtt2 docs2 := by
    rw [failed_count, failed_count, hids]
    exact List.countP_congr (fun r _ => by simp only [status_of, hsts])
  have hpc : pending_count rs1 rtt1 docs1 = pending_count rs2 rtt2 docs2 := by
    rw [pending_count, pending_count, hids, hvc, hfc]
  have hrows : (all_req_ids_sorted rtt1 docs1).map (table_row rs1 rtt1)
      = (all_req_ids_sorted rtt2 docs2).map (table_row rs2 rtt2) := by
    rw [hids]
    exact List.map_congr_left (fun r _ => by rw [table_row, table_row, hsts, hrt])
  have hev : ∀ n, evidence_line tos1 n = evidence_line tos2 n :=
    fun n => by rw [evidence_line, evidence_line, hto]
  have hdets : (all_req_ids_sorted rtt1 docs1).map (detail_block rs1 rtt1 tos1)
      = (all_req_ids_sorted rtt2 docs2).map (detail_block rs2 rtt2 tos2) := by
    rw [hids]
    refine List.map_congr_left (fun r _ => ?_)
    rw [detail_block, detail_block, hsts, hrt]
    have : (dictGet rtt2 r []).map (evidence_line tos1)
        = (dictGet rtt2 r []).map (evidence_line tos2) :=
      List.map_congr_left (fun n _ => hev n)
    rw [this]
  rw [build_markdown_report, build_markdown_report, hrows, hdets, hvc, hfc, hpc,
    hc "passed", hc "failed", hc "skipped", htos.length_eq, hids]

/-- Witness: two insertion orders of the same stores render the identical
report text. -/
theorem C9_report_determinism_witness :
    build_markdown_report [("REQ-A-001", "[x] Verified"), ("REQ-B-002", "[x] Failed")]
      [("REQ-A-001", ["t1"]), ("REQ-B-002", ["t2"])]
      [("t1", "passed"), ("t2", "failed")] ["REQ-C-003", "REQ-A-001"] "1.0.0" "alice" "2026-01-01"
    = build_markdown_report [("REQ-B-002", "[x] Failed"), ("REQ-A-001", "[x] Verified")]
      [("REQ-B-002", ["t2"]), ("REQ-A-001", ["t1"])]
      [("t2", "failed"), ("t1", "passed")] ["REQ-A-001", "REQ-C-003"] "1.0.0" "alice" "2026-01-01" :=
  C9_report_determinism _ _ _ _ _ _ _ _ "1.0.0" "alice" "2026-01-01"
    (by decide) (by decide) (by decide) (by decide) (by decide) (by decide) (by decide)

theorem statusFor_values {tos : List (String × String)} {ts : List String} {s : String}
    (h : statusFor tos ts = some s) : s = "[x] Failed" ∨ s = "[x] Verified" := by
  rw [statusFor] at h
  split at h
  · left; exact (Option.some_inj.mp h).symm
  · split at h
    · right; exact (Option.some_inj.mp h).symm
    · cases h

theorem dictGet_cases {β : Type} (d : List (String × β)) (k : String) (dflt : β) :
    dictGet d k dflt = dflt ∨ (k, dictGet d k dflt) ∈ d := by
  induction d with
  | nil => left; rfl
  | cons p rest ih =>
    by_cases hp : (p.1 == k) = true
    · right
      simp only [dictGet, hp, if_true]
      have hk : p.1 = k := beq_iff_eq.mp hp
      exact List.mem_cons.mpr (Or.inl (by rw [← hk]))
    · simp only [dictGet, hp, Bool.false_eq_true, if_false]
      rcases ih with h | h
      · left; exact h
      · right; exact List.mem_cons_of_mem p h

theorem status_of_cases (tos : List (String × String))
    (rtt : List (String × List String)) (r : String) :
    status_of (get_requirement_statuses tos rtt) r = "[x] Failed" ∨
    status_of (get_requirement_statuses tos rtt) r = "[x] Verified" ∨
    status_of (get_requirement_statuses tos rtt) r = "[ ] Not Started" := by
  rcases dictGet_cases (get_requirement_statuses tos rtt) r "[ ] Not Started" with h | h
  · right; right; exact h
  · obtain ⟨ts, _, hst⟩ := mem_get_requirement_statuses h
    rcases statusFor_values hst with h' | h'
    · left; exact h'
    · right; left; exact h'

theorem countP_add_countP_le_length {α : Type} (l : List α) (p q : α → Bool)
    (h : ∀ x ∈ l, ¬(p x = true ∧ q x = true)) :
    l.countP p + l.countP q ≤ l.length := by
  induction l with
  | nil => simp
  | cons a l ih =>
    have hrec := ih (fun x hx => h x (List.mem_cons_of_mem a hx))
    rw [List.countP_cons, List.countP_cons, List.length_cons]
    by_cases hp : p a = true
    · have hq : ¬ q a = true := fun hq => h a (List.mem_cons_self a l) ⟨hp, hq⟩
      rw [if_pos hp, if_neg hq]
      omega
    · by_cases hq : q a = true
      · rw [if_neg hp, if_pos hq]
        omega
      · rw [if_neg hp, if_neg hq]
        omega

/-- C10: the status map stores only `[x] Failed` / `[x] Verified` values — a
`[ ] Not Started` entry is never stored, that status existing only as the
lookup default at rendering time — and consequently the summary's verified,
failed and pending counters always sum exactly to the total requirement
count. -/
theorem C10_status_map_never_not_started (tos : List (String × String))
    (rtt : List (String × List String)) (ids : List String) (r s : String)
    (hmem : (r, s) ∈ get_requirement_statuses tos rtt) :
    ((s = "[x] Failed" ∨ s = "[x] Verified") ∧ s ≠ "[ ] Not Started") ∧
    verified_count (get_requirement_statuses tos rtt) rtt ids
      + failed_count (get_requirement_statuses tos rtt) rtt ids
      + pending_count (get_requirement_statuses tos rtt) rtt ids
      = (all_req_ids_sorted rtt ids).length := by
  constructor
  · obtain ⟨ts, _, hst⟩ := mem_get_requirement_statuses hmem
    refine ⟨statusFor_values hst, ?_⟩
    rcases statusFor_values hst with h | h <;> rw [h] <;> decide
  · have hdisj : ∀ rid ∈ all_req_ids_sorted rtt ids,
        ¬(strEndsWith (status_of (get_requirement_statuses tos rtt) rid) "Verified" = true ∧
          strEndsWith (status_of (get_requirement_statuses tos rtt) rid) "Failed" = true) := by
      intro rid _
      rcases status_of_cases tos rtt rid with h | h | h <;> rw [h] <;> decide
    have hle := countP_add_countP_le_length (all_req_ids_sorted rtt ids)
      (fun rid => strEndsWith (status_of (get_requirement_statuses tos rtt) rid) "Verified")
      (fun rid => strEndsWith (status_of (get_requirement_statuses tos rtt) rid) "Failed")
      hdisj
    simp only [verified_count, failed_count, pending_count]
    omega

/-- Witness: a concrete verified requirement's stored status, and the counter
identity on a universe with one verified and one pending requirement. -/
theorem C10_status_map_never_not_started_witness :
    ((("[x] Verified" : String) = "[x] Failed" ∨ ("[x] Verified" : String) = "[x] Verified") ∧
      ("[x] Verified" : String) ≠ "[ ] Not Started") ∧
    verified_count (get_requirement_statuses [("t1", "passed")] [("REQ-A-001", ["t1"])])
        [("REQ-A-001", ["t1"])] ["REQ-B-002"]
      + failed_count (get_requirement_statuses [("t1", "passed")] [("REQ-A-001", ["t1"])])
        [("REQ-A-001", ["t1"])] ["REQ-B-002"]
      + pending_count (get_requirement_statuses [("t1", "passed")] [("REQ-A-001", ["t1"])])
        [("REQ-A-001", ["t1"])] ["REQ-B-002"]
      = (all_req_ids_sorted [("REQ-A-001", ["t1"])] ["REQ-B-002"]).length :=
  C10_status_map_never_not_started [("t1", "passed")] [("REQ-A-001", ["t1"])]
    ["REQ-B-002"] "REQ-A-001" "[x] Verified" (by decide)
